import Mathlib

/-!
Verification development for `create_daylight_calendar.py`.

Shallow embedding conventions:
* A calendar date (Python `datetime.date`) is modelled as an `Int` counting
  days since 1970-01-01 in the proleptic Gregorian calendar.  Python dates
  are isomorphic to such ordinals; `current_date += timedelta(days=1)` is
  `d + 1` and date comparison is integer comparison.
* A timezone-aware local datetime is modelled as an `Int` counting seconds
  on the linearised wall clock (so `dt - timedelta(minutes=30)` is
  `dt - 1800`, exactly Python's wall-clock arithmetic on aware datetimes).
* The astronomical provider (the `astral.sun.sun` call, external per the
  spec) is an abstract function `Date → Except String SunTimes`; theorems
  quantify over it.  Timezone lookup and geocoding are likewise external
  and enter only as string parameters.
* `hashlib.md5` is embedded concretely below (bytes as `Nat < 256`, words
  as `Nat` with explicit `% 2^32`).
-/

namespace DaylightCalendar

/-- Year/month/day components of a civil date (Python `date.year` etc.). -/
structure Ymd where
  year : Int
  month : Int
  day : Int
deriving DecidableEq

/-- Convert days-since-epoch to civil year/month/day (proleptic Gregorian);
this is the arithmetic underlying Python `date.fromordinal`/`strftime`. -/
def civilFromDays (z0 : Int) : Ymd :=
  let z := z0 + 719468
  let era := Int.fdiv z 146097
  let doe := z - era * 146097
  let yoe := Int.fdiv (doe - Int.fdiv doe 1460 + Int.fdiv doe 36524 - Int.fdiv doe 146096) 365
  let y := yoe + era * 400
  let doy := doe - (365 * yoe + Int.fdiv yoe 4 - Int.fdiv yoe 100)
  let mp := Int.fdiv (5 * doy + 2) 153
  let d := doy - Int.fdiv (153 * mp + 2) 5 + 1
  let m := if mp < 10 then mp + 3 else mp - 9
  { year := if m ≤ 2 then y + 1 else y, month := m, day := d }

/-- Zero-padded two-digit decimal rendering (strftime `%m`, `%d`, `%H`,
`%M`, `%S`; all those fields are below 100). -/
def pad2 (n : Nat) : String :=
  String.mk [Nat.digitChar (n / 10 % 10), Nat.digitChar (n % 10)]

/-- Zero-padded four-digit decimal rendering (strftime `%Y`; Python dates
have year between 1 and 9999). -/
def pad4 (n : Nat) : String :=
  if n < 10000 then
    String.mk [Nat.digitChar (n / 1000), Nat.digitChar (n / 100 % 10),
               Nat.digitChar (n / 10 % 10), Nat.digitChar (n % 10)]
  else
    toString n

/-- The date component of a wall-clock datetime. -/
def dateOfDT (dt : Int) : Int := Int.fdiv dt 86400

/-- Second-of-day of a wall-clock datetime, in `[0, 86400)`. -/
def timeOfDay (dt : Int) : Nat := (Int.emod dt 86400).toNat

/-- strftime `"%Y-%m-%d"` on a date (also `date.isoformat()`). -/
def formatDateYMD (d : Int) : String :=
  let c := civilFromDays d
  pad4 c.year.toNat ++ "-" ++ pad2 c.month.toNat ++ "-" ++ pad2 c.day.toNat

/-- strftime `"%Y%m%d"` on a date. -/
def formatDateCompact (d : Int) : String :=
  let c := civilFromDays d
  pad4 c.year.toNat ++ pad2 c.month.toNat ++ pad2 c.day.toNat

/-- strftime `"%H:%M:%S"` on a datetime. -/
def formatTimeHMS (dt : Int) : String :=
  let t := timeOfDay dt
  pad2 (t / 3600) ++ ":" ++ pad2 (t % 3600 / 60) ++ ":" ++ pad2 (t % 60)

/-- Source `format_datetime_ics(dt)`: strftime `"%Y%m%dT%H%M%S"`. -/
def format_datetime_ics (dt : Int) : String :=
  let t := timeOfDay dt
  formatDateCompact (dateOfDT dt) ++ "T" ++ pad2 (t / 3600) ++ pad2 (t % 3600 / 60) ++ pad2 (t % 60)

/-- Result of a successful astronomical-provider call for one day:
the `sunrise` and `sunset` entries of the returned dict. -/
structure SunTimes where
  sunrise : Int
  sunset : Int
deriving DecidableEq

/-- The astronomical provider for a fixed location and timezone: the
`sun(location.observer, date=d, tzinfo=tz)` call, which either returns
sunrise/sunset or raises (modelled as `Except.error reason`). -/
abbrev Provider := Int → Except String SunTimes

/-- One entry of `events_data` in `generate_daylight_calendar` (source dict
keys: summary, description, start, end, type, date; `end` is `stop` here
because `end` is reserved in Lean). -/
structure EventData where
  summary : String
  description : String
  start : Int
  stop : Int
  etype : String
  date : Int
deriving DecidableEq

/-- The sunrise event appended in split mode: 30 minutes long, ending at
sunrise. -/
def sunriseEvent (d : Int) (st : SunTimes) : EventData :=
  { summary := "Sunrise", description := "Sunrise",
    start := st.sunrise - 30 * 60, stop := st.sunrise,
    etype := "sunrise", date := d }

/-- The sunset event appended in split mode: 30 minutes long, ending at
sunset. -/
def sunsetEvent (d : Int) (st : SunTimes) : EventData :=
  { summary := "Sunset", description := "Sunset",
    start := st.sunset - 30 * 60, stop := st.sunset,
    etype := "sunset", date := d }

/-- The single daylight event appended in combined mode. -/
def daylightEvent (d : Int) (st : SunTimes) : EventData :=
  { summary := "Daylight", description := "Daylight hours from sunrise to sunset",
    start := st.sunrise, stop := st.sunset,
    etype := "daylight", date := d }

/-- Events appended for one successful day, according to `separate_events`. -/
def dayEvents (separate_events : Bool) (d : Int) (st : SunTimes) : List EventData :=
  if separate_events then [sunriseEvent d st, sunsetEvent d st] else [daylightEvent d st]

/-- The inclusive date range iterated by the while loop
(`current_date = start_date; while current_date <= end_date: ...; current_date += 1 day`). -/
def dateRange (start_date end_date : Int) : List Int :=
  if start_date > end_date then []
  else start_date :: dateRange (start_date + 1) end_date
termination_by (end_date + 1 - start_date).toNat
decreasing_by
  simp only [Int.not_lt] at *
  omega

/-- The body of the collection loop in `generate_daylight_calendar`,
run over a list of dates: on provider success append the day's event(s) to
`events_data`; on provider failure record `(date, reason)` (the printed
"Skipping" line) and continue.  Returns `(events_data, failures)`. -/
def buildEventsData (separate_events : Bool) (provider : Provider) :
    List Int → List EventData × List (Int × String)
  | [] => ([], [])
  | d :: ds =>
    let rest := buildEventsData separate_events provider ds
    match provider d with
    | .ok st => (dayEvents separate_events d st ++ rest.1, rest.2)
    | .error e => (rest.1, (d, e) :: rest.2)

/-- MD5: per-round shift amounts. -/
def md5S : List Nat :=
  [7, 12, 17, 22, 7, 12, 17, 22, 7, 12, 17, 22, 7, 12, 17, 22,
   5, 9, 14, 20, 5, 9, 14, 20, 5, 9, 14, 20, 5, 9, 14, 20,
   4, 11, 16, 23, 4, 11, 16, 23, 4, 11, 16, 23, 4, 11, 16, 23,
   6, 10, 15, 21, 6, 10, 15, 21, 6, 10, 15, 21, 6, 10, 15, 21]

/-- MD5: per-round additive constants (floor of `2^32 * |sin(i+1)|`). -/
def md5K : List Nat :=
  [0xd76aa478, 0xe8c7b756, 0x242070db, 0xc1bdceee,
   0xf57c0faf, 0x4787c62a, 0xa8304613, 0xfd469501,
   0x698098d8, 0x8b44f7af, 0xffff5bb1, 0x895cd7be,
   0x6b901122, 0xfd987193, 0xa679438e, 0x49b40821,
   0xf61e2562, 0xc040b340, 0x265e5a51, 0xe9b6c7aa,
   0xd62f105d, 0x02441453, 0xd8a1e681, 0xe7d3fbc8,
   0x21e1cde6, 0xc33707d6, 0xf4d50d87, 0x455a14ed,
   0xa9e3e905, 0xfcefa3f8, 0x676f02d9, 0x8d2a4c8a,
   0xfffa3942, 0x8771f681, 0x6d9d6122, 0xfde5380c,
   0xa4beea44, 0x4bdecfa9, 0xf6bb4b60, 0xbebfbc70,
   0x289b7ec6, 0xeaa127fa, 0xd4ef3085, 0x04881d05,
   0xd9d4d039, 0xe6db99e5, 0x1fa27cf8, 0xc4ac5665,
   0xf4292244, 0x432aff97, 0xab9423a7, 0xfc93a039,
   0x655b59c3, 0x8f0ccc92, 0xffeff47d, 0x85845dd1,
   0x6fa87e4f, 0xfe2ce6e0, 0xa3014314, 0x4e0811a1,
   0xf7537e82, 0xbd3af235, 0x2ad7d2bb, 0xeb86d391]

/-- Truncate to a 32-bit word. -/
def mask32 (n : Nat) : Nat := n % 4294967296

/-- 32-bit left rotation (argument below `2^32`). -/
def rotl32 (x c : Nat) : Nat := mask32 (x <<< c) ||| (x >>> (32 - c))

/-- Little-endian bytes of a 32-bit word. -/
def md5LE4 (n : Nat) : List Nat := [n % 256, n / 256 % 256, n / 65536 % 256, n / 16777216 % 256]

/-- Little-endian 8-byte rendering of the 64-bit bit length. -/
def md5LE8 (n : Nat) : List Nat := (List.range 8).map (fun i => n / 256 ^ i % 256)

/-- MD5 padding: append `0x80`, zeros to 56 mod 64 bytes, then the bit
length as 8 little-endian bytes. -/
def md5Pad (msg : List Nat) : List Nat :=
  let pz := (120 - (msg.length + 1) % 64) % 64
  msg ++ 128 :: (List.replicate pz 0 ++ md5LE8 (8 * msg.length % 2 ^ 64))

/-- Split a byte list into 64-byte chunks. -/
def toChunks64 (l : List Nat) : List (List Nat) :=
  if h : l = [] then [] else l.take 64 :: toChunks64 (l.drop 64)
termination_by l.length
decreasing_by
  cases l with
  | nil => exact absurd rfl h
  | cons a as =>
    simp only [List.length_drop, List.length_cons]
    omega

/-- Message-schedule word `j` (little-endian) of a 64-byte chunk. -/
def md5Words (chunk : List Nat) (j : Nat) : Nat :=
  chunk.getD (4 * j) 0 + 256 * chunk.getD (4 * j + 1) 0 +
    65536 * chunk.getD (4 * j + 2) 0 + 16777216 * chunk.getD (4 * j + 3) 0

/-- One MD5 round on the state `(a, b, c, d)`. -/
def md5Step (M : Nat → Nat) (st : Nat × Nat × Nat × Nat) (i : Nat) : Nat × Nat × Nat × Nat :=
  let a := st.1
  let b := st.2.1
  let c := st.2.2.1
  let d := st.2.2.2
  let fg : Nat × Nat :=
    if i < 16 then ((b &&& c) ||| (Nat.xor b 4294967295 &&& d), i)
    else if i < 32 then ((d &&& b) ||| (Nat.xor d 4294967295 &&& c), (5 * i + 1) % 16)
    else if i < 48 then (Nat.xor b (Nat.xor c d), (3 * i + 5) % 16)
    else (Nat.xor c (b ||| Nat.xor d 4294967295), 7 * i % 16)
  let f := mask32 (fg.1 + a + md5K.getD i 0 + M fg.2)
  (d, mask32 (b + rotl32 f (md5S.getD i 0)), b, c)

/-- Digest one 64-byte chunk into the running state. -/
def md5Chunk (st : Nat × Nat × Nat × Nat) (chunk : List Nat) : Nat × Nat × Nat × Nat :=
  let r := (List.range 64).foldl (md5Step (md5Words chunk)) st
  (mask32 (st.1 + r.1), mask32 (st.2.1 + r.2.1),
   mask32 (st.2.2.1 + r.2.2.1), mask32 (st.2.2.2 + r.2.2.2))

/-- Two lowercase hex characters of a byte. -/
def byteHex (b : Nat) : List Char := [Nat.digitChar (b / 16 % 16), Nat.digitChar (b % 16)]

/-- MD5 hex digest of a byte string (Python `hashlib.md5(...).hexdigest()`). -/
def md5HexDigest (msg : List Nat) : String :=
  let st := (toChunks64 (md5Pad msg)).foldl md5Chunk (1732584193, 4023233417, 2562383102, 271733878)
  String.mk (((md5LE4 st.1 ++ md5LE4 st.2.1 ++ md5LE4 st.2.2.1 ++ md5LE4 st.2.2.2).map byteHex).flatten)

/-- UTF-8 bytes of a string (Python `str.encode()`). -/
def strBytes (s : String) : List Nat := s.toUTF8.toList.map UInt8.toNat

/-- Source `generate_uid(date, event_type, lat, lng)`.  `lat` and
`lng` are the decimal renderings of the float coordinates (Python
interpolates them into the f-string); they are carried as strings. -/
def generate_uid (date : Int) (event_type lat lng : String) : String :=
  let uid_string := formatDateYMD date ++ "-" ++ event_type ++ "-" ++ lat ++ "-" ++ lng
  let hash_suffix := (md5HexDigest (strBytes uid_string)).take 8
  formatDateCompact date ++ "-" ++ event_type ++ "-" ++ hash_suffix ++ "@daylight-calendar"

/-- Double every embedded quote character: the escaping applied by
`csv.writer` (default dialect, `doublequote=True`). -/
def escapeQuotes : List Char → List Char
  | [] => []
  | c :: cs => if c = '"' then '"' :: '"' :: escapeQuotes cs else c :: escapeQuotes cs

/-- Wrap a field in quotes, doubling embedded quotes: `csv.QUOTE_ALL`
quoting of a single field. -/
def quoteField (s : String) : String := "\"" ++ String.mk (escapeQuotes s.data) ++ "\""

/-- Join quoted fields with the comma delimiter (`csv.writer` row body). -/
def csvJoinFields : List String → String
  | [] => ""
  | [f] => quoteField f
  | f :: fs => quoteField f ++ "," ++ csvJoinFields fs

/-- One CSV record as written by `csv.writer.writerow` (default dialect
line terminator is CRLF, passed through verbatim since the file is opened
with `newline=''`). -/
def csvRowString (fields : List String) : String := csvJoinFields fields ++ "\r\n"

/-- The fixed CSV header fields (`headers` in the source). -/
def csvHeaders : List String :=
  ["Subject", "Start Date", "Start Time", "End Date", "End Time",
   "All Day Event", "Description", "Private"]

/-- The row written for one event in the CSV branch (`row` in the source). -/
def eventCsvFields (e : EventData) : List String :=
  [e.summary,
   formatDateYMD (dateOfDT e.start), formatTimeHMS e.start,
   formatDateYMD (dateOfDT e.stop), formatTimeHMS e.stop,
   "False", e.description, "True"]

/-- The event rows written by the CSV branch's `for` loop, in order. -/
def csvRowsContent : List EventData → String
  | [] => ""
  | e :: es => csvRowString (eventCsvFields e) ++ csvRowsContent es

/-- Full content of the CSV output file: header row then one row per
event. -/
def generateCsvContent (events : List EventData) : String :=
  csvRowString csvHeaders ++ csvRowsContent events

/-- One entry of the `ics_events` list in the source. -/
structure IcsEvent where
  uid : String
  dtstamp : String
  dtstart : String
  dtend : String
  summary : String
  description : String
  timezone : String
deriving DecidableEq

/-- The eleven lines appended per event inside `generate_ics_content`. -/
def eventIcsLines (evt : IcsEvent) : List String :=
  ["BEGIN:VEVENT",
   "UID:" ++ evt.uid,
   "DTSTAMP:" ++ evt.dtstamp,
   "DTSTART;TZID=" ++ evt.timezone ++ ":" ++ evt.dtstart,
   "DTEND;TZID=" ++ evt.timezone ++ ":" ++ evt.dtend,
   "SUMMARY:" ++ evt.summary,
   "DESCRIPTION:" ++ evt.description,
   "CLASS:PRIVATE",
   "STATUS:CONFIRMED",
   "TRANSP:TRANSPARENT",
   "END:VEVENT"]

/-- The fixed initial lines of `ics_lines`. -/
def icsPreambleLines : List String :=
  ["BEGIN:VCALENDAR",
   "VERSION:2.0",
   "PRODID:-//Daylight Calendar Generator//EN",
   "CALSCALE:GREGORIAN",
   "METHOD:PUBLISH"]

/-- The `ics_lines` list after the event loop and the final append. -/
def icsLines (events : List IcsEvent) : List String :=
  icsPreambleLines ++ (events.map eventIcsLines).flatten ++ ["END:VCALENDAR"]

/-- Python `"\r\n".join(lines)`. -/
def joinCRLF : List String → String
  | [] => ""
  | [l] => l
  | l :: ls => l ++ "\r\n" ++ joinCRLF ls

/-- Source `generate_ics_content(events)`: CRLF-joined lines plus a trailing
CRLF. -/
def generate_ics_content (events : List IcsEvent) : String :=
  joinCRLF (icsLines events) ++ "\r\n"

/-- The dict appended per event in the ICS branch of
`generate_daylight_calendar`. -/
def toIcsEvent (lat lng timezone_str dtstamp : String) (e : EventData) : IcsEvent :=
  { uid := generate_uid e.date e.etype lat lng,
    dtstamp := dtstamp,
    dtstart := format_datetime_ics e.start,
    dtend := format_datetime_ics e.stop,
    summary := e.summary,
    description := e.description,
    timezone := timezone_str }

/-- Externally visible effects of a run: one provider invocation per
iterated day, and the single output-file write at the end. -/
inductive Action where
  | query (d : Int)
  | fileWrite (filename content : String)
deriving DecidableEq

/-- True exactly on `fileWrite` actions. -/
def Action.isWrite : Action → Bool
  | .fileWrite _ _ => true
  | .query _ => false

/-- Result of `generate_daylight_calendar`: the content written to the
output file, the recorded per-day failures (the printed "Skipping" lines),
and the ordered effect trace. -/
structure RunOutput where
  fileContent : String
  failures : List (Int × String)
  trace : List Action
deriving DecidableEq

/-- Source `generate_daylight_calendar`.  External collaborators
enter as parameters: `provider` is the astronomical provider for the fixed
location, `timezone_str` the resolved timezone identifier, `now` the
single `datetime.now(pytz.UTC)` reading taken before the loop, and
`lat`/`lng` the decimal renderings of the coordinates as used in UID
strings.  Date parsing (`strptime`) is part of the excluded invocation
layer, so the dates arrive already parsed.  The loop queries the provider
once per day of the inclusive range, appending events on success and
recording `(date, reason)` on failure; only after the loop completes is
the output serialized and written, once. -/
def generate_daylight_calendar (provider : Provider) (lat lng timezone_str : String)
    (start_date end_date : Int) (filename : String)
    (separate_events : Bool) (format_type : String) (now : Int) : RunOutput :=
  let dtstamp := format_datetime_ics now
  let dates := dateRange start_date end_date
  let built := buildEventsData separate_events provider dates
  let content :=
    if format_type = "ics" then
      generate_ics_content (built.1.map (toIcsEvent lat lng timezone_str dtstamp))
    else
      generateCsvContent built.1
  { fileContent := content,
    failures := built.2,
    trace := dates.map Action.query ++ [Action.fileWrite filename content] }

/-- Conformant reading of one quoted CSV field, starting just after the
opening quote: consume up to the closing quote, undoubling embedded quote
pairs; return the field text and the remainder after the closing quote. -/
def parseQuotedTail : List Char → Option (List Char × List Char)
  | [] => none
  | c :: rest =>
    if c = '"' then
      if rest.head? = some '"' then
        (parseQuotedTail rest.tail).map (fun p => ('"' :: p.1, p.2))
      else
        some ([], rest)
    else
      (parseQuotedTail rest).map (fun p => (c :: p.1, p.2))
termination_by l => l.length
decreasing_by
  · simp only [List.length_cons, List.length_tail]
    omega
  · simp [List.length_cons]

/-- Conformant reading of a full all-fields-quoted CSV record terminated
by CRLF (fuel bounds the number of fields). -/
def parseRecordAux : Nat → List Char → Option (List String)
  | fuel + 1, '"' :: rest =>
    match parseQuotedTail rest with
    | some (f, r) =>
      if r.head? = some ',' then
        (parseRecordAux fuel r.tail).map (fun fs => String.mk f :: fs)
      else if r = ['\r', '\n'] then
        some [String.mk f]
      else none
    | none => none
  | _, _ => none

/-- Parse one CSV record string written with the `QUOTE_ALL` convention
back into its list of fields. -/
def parseCsvRecord (s : String) : Option (List String) :=
  parseRecordAux s.length s.data

/-- The per-day failure record produced by the loop for a date, if any. -/
def failRecord (provider : Provider) (d : Int) : Option (Int × String) :=
  match provider d with
  | .ok _ => none
  | .error r => some (d, r)

theorem dateRange_eq_nil {s e : Int} (h : e < s) : dateRange s e = [] := by
  rw [dateRange]
  simp [h]

theorem dateRange_eq_cons {s e : Int} (h : s ≤ e) : dateRange s e = s :: dateRange (s + 1) e := by
  rw [dateRange]
  simp [Int.not_lt.mpr h]

theorem mem_dateRange {x : Int} : ∀ {s e : Int}, x ∈ dateRange s e ↔ s ≤ x ∧ x ≤ e := by
  intro s e
  induction s, e using dateRange.induct with
  | case1 s e h =>
    rw [dateRange_eq_nil h]
    simp
    omega
  | case2 s e h ih =>
    have hse : s ≤ e := by omega
    rw [dateRange_eq_cons hse]
    simp only [List.mem_cons, ih]
    omega

theorem pairwise_dateRange : ∀ {s e : Int}, (dateRange s e).Pairwise (· < ·) := by
  intro s e
  induction s, e using dateRange.induct with
  | case1 s e h => rw [dateRange_eq_nil h]; exact List.Pairwise.nil
  | case2 s e h ih =>
    have hse : s ≤ e := by omega
    rw [dateRange_eq_cons hse]
    refine List.Pairwise.cons (fun y hy => ?_) ih
    have := mem_dateRange.mp hy
    omega

theorem length_dateRange : ∀ {s e : Int}, (dateRange s e).length = (e + 1 - s).toNat := by
  intro s e
  induction s, e using dateRange.induct with
  | case1 s e h => rw [dateRange_eq_nil h]; simp; omega
  | case2 s e h ih =>
    have hse : s ≤ e := by omega
    rw [dateRange_eq_cons hse]
    simp only [List.length_cons, ih]
    omega

theorem count_dateRange {x s e : Int} (h : x ∈ dateRange s e) : (dateRange s e).count x = 1 :=
  List.count_eq_one_of_mem (List.Pairwise.imp Int.ne_of_lt pairwise_dateRange) h

theorem date_of_mem_dayEvents {sep : Bool} {d : Int} {st : SunTimes} {ev : EventData}
    (h : ev ∈ dayEvents sep d st) : ev.date = d := by
  cases sep <;> simp only [dayEvents, Bool.false_eq_true, if_true, if_false,
    List.mem_cons, List.mem_singleton, List.not_mem_nil, or_false] at h
  · rw [h]; rfl
  · rcases h with h | h <;> rw [h] <;> rfl

theorem mem_buildEventsData {sep : Bool} {p : Provider} :
    ∀ {ds : List Int} {ev : EventData}, ev ∈ (buildEventsData sep p ds).1 →
      ev.date ∈ ds ∧ ∃ st, p ev.date = .ok st ∧ ev ∈ dayEvents sep ev.date st := by
  intro ds
  induction ds with
  | nil => intro ev h; simp [buildEventsData] at h
  | cons d ds ih =>
    intro ev h
    cases hpd : p d with
    | ok st =>
      rw [buildEventsData] at h
      simp only [hpd, List.mem_append] at h
      rcases h with h | h
      · have hd := date_of_mem_dayEvents h
        exact ⟨by simp [hd], st, by rwa [hd], by rwa [hd]⟩
      · obtain ⟨h1, h2⟩ := ih h
        exact ⟨List.mem_cons_of_mem _ h1, h2⟩
    | error r =>
      rw [buildEventsData] at h
      simp only [hpd] at h
      obtain ⟨h1, h2⟩ := ih h
      exact ⟨List.mem_cons_of_mem _ h1, h2⟩

theorem failures_buildEventsData {sep : Bool} {p : Provider} :
    ∀ ds : List Int, (buildEventsData sep p ds).2 = ds.filterMap (failRecord p) := by
  intro ds
  induction ds with
  | nil => rfl
  | cons d ds ih =>
    cases hpd : p d with
    | ok st =>
      rw [buildEventsData]
      simp [hpd, List.filterMap_cons, failRecord, ih]
    | error r =>
      rw [buildEventsData]
      simp [hpd, List.filterMap_cons, failRecord, ih]

theorem count_failRecord {p : Provider} {d : Int} {r : String} :
    ∀ {ds : List Int}, ds.count d = 1 → p d = .error r →
      (ds.filterMap (failRecord p)).count (d, r) = 1 := by
  intro ds
  induction ds with
  | nil => intro h _; simp at h
  | cons a ds ih =>
    intro hcount hfail
    by_cases had : a = d
    · subst had
      have hzero : ds.count a = 0 := by
        have := List.count_cons_self a ds
        omega
      have hnotmem : a ∉ ds := List.count_eq_zero.mp hzero
      have hnone : (ds.filterMap (failRecord p)).count (a, r) = 0 := by
        rw [List.count_eq_zero]
        intro hmem
        obtain ⟨x, hx, hfx⟩ := List.mem_filterMap.mp hmem
        have hxa : x = a := by
          unfold failRecord at hfx
          cases hpx : p x <;> simp [hpx] at hfx
          exact hfx.1
        exact hnotmem (hxa ▸ hx)
      simp [List.filterMap_cons, failRecord, hfail, hnone]
    · have hcount2 : ds.count d = 1 := by
        rwa [List.count_cons_of_ne (fun h => had h.symm)] at hcount
      cases hpa : p a with
      | ok st => simp [List.filterMap_cons, failRecord, hpa, ih hcount2 hfail]
      | error ra =>
        have hne : (a, ra) ≠ (d, r) := fun h => had (congrArg Prod.fst h)
        simp only [List.filterMap_cons, failRecord, hpa]
        rw [List.count_cons_of_ne (fun h => hne h.symm)]
        exact ih hcount2 hfail

theorem length_buildEventsData {sep : Bool} {p : Provider} :
    ∀ {ds : List Int}, (∀ d ∈ ds, ∃ st, p d = .ok st) →
      (buildEventsData sep p ds).1.length = (if sep then 2 else 1) * ds.length := by
  intro ds
  induction ds with
  | nil => intro _; simp [buildEventsData]
  | cons d ds ih =>
    intro h
    obtain ⟨st, hst⟩ := h d (List.mem_cons_self d ds)
    rw [buildEventsData]
    simp only [hst, List.length_append, List.length_cons]
    rw [ih (fun x hx => h x (List.mem_cons_of_mem _ hx))]
    cases sep <;> simp [dayEvents] <;> omega

theorem filter_buildEventsData {sep : Bool} {p : Provider} {d : Int} {st : SunTimes} :
    ∀ {ds : List Int}, ds.count d = 1 → p d = .ok st →
      (buildEventsData sep p ds).1.filter (fun ev => ev.date == d) = dayEvents sep d st := by
  intro ds
  induction ds with
  | nil => intro h _; simp at h
  | cons a ds ih =>
    intro hcount hok
    by_cases had : a = d
    · subst had
      have hzero : ds.count a = 0 := by
        have := List.count_cons_self a ds
        omega
      have hnotmem := List.count_eq_zero.mp hzero
      rw [buildEventsData]
      simp only [hok, List.filter_append]
      have h1 : (dayEvents sep a st).filter (fun ev => ev.date == a) = dayEvents sep a st := by
        apply List.filter_eq_self.mpr
        intro ev hev
        simp [date_of_mem_dayEvents hev]
      have h2 : ((buildEventsData sep p ds).1).filter (fun ev => ev.date == a) = [] := by
        apply List.filter_eq_nil_iff.mpr
        intro ev hev
        have hmem := (mem_buildEventsData hev).1
        simp only [beq_iff_eq]
        intro hd
        exact hnotmem (hd ▸ hmem)
      rw [h1, h2, List.append_nil]
    · have hcount2 : ds.count d = 1 := by
        rwa [List.count_cons_of_ne (fun hh => had hh.symm)] at hcount
      cases hpa : p a with
      | ok sta =>
        rw [buildEventsData]
        simp only [hpa, List.filter_append]
        have h1 : (dayEvents sep a sta).filter (fun ev => ev.date == d) = [] := by
          apply List.filter_eq_nil_iff.mpr
          intro ev hev
          simp only [beq_iff_eq, date_of_mem_dayEvents hev]
          exact had
        rw [h1, List.nil_append]
        exact ih hcount2 hok
      | error ra =>
        rw [buildEventsData]
        simp only [hpa]
        exact ih hcount2 hok

theorem pairwise_le_buildEventsData {sep : Bool} {p : Provider} :
    ∀ {ds : List Int}, ds.Pairwise (· < ·) →
      (buildEventsData sep p ds).1.Pairwise (fun a b => a.date ≤ b.date) := by
  intro ds
  induction ds with
  | nil => intro _; simp [buildEventsData]
  | cons d ds ih =>
    intro hp
    rw [List.pairwise_cons] at hp
    obtain ⟨hd, hds⟩ := hp
    cases hpd : p d with
    | error r =>
      rw [buildEventsData]
      simp only [hpd]
      exact ih hds
    | ok st =>
      rw [buildEventsData]
      simp only [hpd]
      rw [List.pairwise_append]
      refine ⟨?_, ih hds, ?_⟩
      · cases sep <;> simp [dayEvents, sunriseEvent, sunsetEvent, daylightEvent]
      · intro x hx y hy
        have hxd := date_of_mem_dayEvents hx
        have hyd := (mem_buildEventsData hy).1
        have := hd _ hyd
        rw [hxd]
        omega

theorem pairwise_split_buildEventsData {p : Provider} :
    ∀ {ds : List Int}, ds.Pairwise (· < ·) →
      (buildEventsData true p ds).1.Pairwise
        (fun a b => a.date = b.date → a.etype = "sunrise" ∧ b.etype = "sunset") := by
  intro ds
  induction ds with
  | nil => intro _; simp [buildEventsData]
  | cons d ds ih =>
    intro hp
    rw [List.pairwise_cons] at hp
    obtain ⟨hd, hds⟩ := hp
    cases hpd : p d with
    | error r =>
      rw [buildEventsData]
      simp only [hpd]
      exact ih hds
    | ok st =>
      rw [buildEventsData]
      simp only [hpd]
      rw [List.pairwise_append]
      refine ⟨?_, ih hds, ?_⟩
      · simp [dayEvents, sunriseEvent, sunsetEvent]
      · intro x hx y hy
        have hxd := date_of_mem_dayEvents hx
        have hyd := (mem_buildEventsData hy).1
        have := hd _ hyd
        intro heq
        rw [hxd] at heq
        omega

theorem mem_split_buildEventsData {p : Provider} {ds : List Int} {ev : EventData}
    (h : ev ∈ (buildEventsData true p ds).1) :
    ∃ st, p ev.date = .ok st ∧ (ev = sunriseEvent ev.date st ∨ ev = sunsetEvent ev.date st) := by
  obtain ⟨-, st, hok, hmem⟩ := mem_buildEventsData h
  refine ⟨st, hok, ?_⟩
  simpa [dayEvents] using hmem

theorem buildEventsData_eq_nil {sep : Bool} {p : Provider} :
    ∀ {ds : List Int}, (∀ d ∈ ds, ∃ r, p d = .error r) → (buildEventsData sep p ds).1 = [] := by
  intro ds
  induction ds with
  | nil => intro _; rfl
  | cons d ds ih =>
    intro h
    obtain ⟨r, hr⟩ := h d (List.mem_cons_self d ds)
    rw [buildEventsData]
    simp only [hr]
    exact ih (fun x hx => h x (List.mem_cons_of_mem _ hx))

theorem mk_data_eq (s : String) : String.mk s.data = s := rfl

theorem quoteField_data (s : String) :
    (quoteField s).data = '"' :: (escapeQuotes s.data ++ ['"']) := by
  simp [quoteField]

theorem csvRowString_single (f : String) :
    (csvRowString [f]).data = '"' :: (escapeQuotes f.data ++ '"' :: '\r' :: '\n' :: []) := by
  simp [csvRowString, csvJoinFields, quoteField]

theorem csvRowString_cons (f g : String) (fs : List String) :
    (csvRowString (f :: g :: fs)).data =
      '"' :: (escapeQuotes f.data ++ '"' :: ',' :: (csvRowString (g :: fs)).data) := by
  simp [csvRowString, csvJoinFields, quoteField]

theorem parseQuotedTail_roundtrip :
    ∀ (cs rest : List Char), rest.head? ≠ some '"' →
      parseQuotedTail (escapeQuotes cs ++ '"' :: rest) = some (cs, rest) := by
  intro cs
  induction cs with
  | nil =>
    intro rest hrest
    simp only [escapeQuotes, List.nil_append]
    cases rest with
    | nil => simp [parseQuotedTail]
    | cons c rs =>
      have hcne : c ≠ '"' := by
        intro hh
        exact hrest (by simp [hh])
      rw [parseQuotedTail]
      simp [hcne]
  | cons c cs ih =>
    intro rest hrest
    by_cases hc : c = '"'
    · subst hc
      have hesc : escapeQuotes ('"' :: cs) = '"' :: '"' :: escapeQuotes cs := by
        simp [escapeQuotes]
      rw [hesc, List.cons_append, List.cons_append, parseQuotedTail]
      simp only [List.head?_cons, List.tail_cons, if_true]
      rw [ih rest hrest]
      rfl
    · have hesc : escapeQuotes (c :: cs) = c :: escapeQuotes cs := by
        simp [escapeQuotes, hc]
      rw [hesc, List.cons_append, parseQuotedTail]
      rw [if_neg hc]
      rw [ih rest hrest]
      rfl

theorem parseRecordAux_roundtrip :
    ∀ (fields : List String) (fuel : Nat), fields ≠ [] → fields.length ≤ fuel →
      parseRecordAux fuel (csvRowString fields).data = some fields := by
  intro fields
  induction fields with
  | nil => intro fuel h _; exact absurd rfl h
  | cons f fs ih =>
    intro fuel _ hfuel
    cases fuel with
    | zero => simp at hfuel
    | succ fuel =>
      cases fs with
      | nil =>
        rw [csvRowString_single, parseRecordAux]
        rw [parseQuotedTail_roundtrip f.data ('\r' :: '\n' :: []) (by simp)]
        simp [mk_data_eq]
      | cons g gs =>
        rw [csvRowString_cons, parseRecordAux]
        rw [parseQuotedTail_roundtrip f.data (',' :: (csvRowString (g :: gs)).data) (by simp)]
        have hfuel2 : (g :: gs).length ≤ fuel := by
          simp only [List.length_cons] at hfuel ⊢
          omega
        have hih := ih fuel (by simp) hfuel2
        simp [hih, mk_data_eq]

theorem length_le_csvRowString :
    ∀ fields : List String, fields ≠ [] → fields.length ≤ (csvRowString fields).length := by
  intro fields
  induction fields with
  | nil => intro h; exact absurd rfl h
  | cons f fs ih =>
    intro _
    cases fs with
    | nil =>
      have : (csvRowString [f]).length = (csvRowString [f]).data.length := rfl
      rw [this, csvRowString_single]
      simp
    | cons g gs =>
      have h1 : (csvRowString (f :: g :: gs)).length = (csvRowString (f :: g :: gs)).data.length := rfl
      have h2 : (csvRowString (g :: gs)).length = (csvRowString (g :: gs)).data.length := rfl
      have h3 := ih (by simp)
      rw [h2] at h3
      rw [h1, csvRowString_cons]
      simp only [List.length_cons, List.length_append] at h3 ⊢
      omega

theorem parseCsvRecord_roundtrip (fields : List String) (h : fields ≠ []) :
    parseCsvRecord (csvRowString fields) = some fields := by
  unfold parseCsvRecord
  exact parseRecordAux_roundtrip fields _ h (length_le_csvRowString fields h)

/-- A string shaped like `YYYY-MM-DD`: four digits, dash, two digits,
dash, two digits. -/
def isDateShape (s : String) : Prop :=
  ∃ y m d : List Char, s.data = y ++ '-' :: (m ++ '-' :: d) ∧
    y.length = 4 ∧ m.length = 2 ∧ d.length = 2 ∧
    (y ++ m ++ d).all Char.isDigit = true

/-- A string shaped like `HH:MM:SS`: three two-digit groups separated by
colons. -/
def isTimeShape (s : String) : Prop :=
  ∃ hh mm ss : List Char, s.data = hh ++ ':' :: (mm ++ ':' :: ss) ∧
    hh.length = 2 ∧ mm.length = 2 ∧ ss.length = 2 ∧
    (hh ++ mm ++ ss).all Char.isDigit = true

theorem digitChar_isDigit : ∀ m : Nat, m < 10 → (Nat.digitChar m).isDigit = true := by
  decide

theorem pad2_data (n : Nat) : (pad2 n).data = [Nat.digitChar (n / 10 % 10), Nat.digitChar (n % 10)] :=
  rfl

theorem pad2_digits (n : Nat) : (pad2 n).data.all Char.isDigit = true := by
  rw [pad2_data]
  simp [List.all_cons, digitChar_isDigit _ (Nat.mod_lt _ (by norm_num)),
    digitChar_isDigit _ (Nat.mod_lt _ (by norm_num))]

theorem pad4_data (n : Nat) (h : n < 10000) :
    (pad4 n).data = [Nat.digitChar (n / 1000), Nat.digitChar (n / 100 % 10),
      Nat.digitChar (n / 10 % 10), Nat.digitChar (n % 10)] := by
  rw [pad4, if_pos h]

theorem pad4_digits (n : Nat) (h : n < 10000) : (pad4 n).data.all Char.isDigit = true := by
  rw [pad4_data n h]
  have h1 : n / 1000 < 10 := by omega
  simp [List.all_cons, digitChar_isDigit _ h1,
    digitChar_isDigit _ (Nat.mod_lt _ (by norm_num : (0:Nat) < 10)),
    digitChar_isDigit _ (Nat.mod_lt _ (by norm_num : (0:Nat) < 10)),
    digitChar_isDigit _ (Nat.mod_lt _ (by norm_num : (0:Nat) < 10))]

theorem timeOfDay_lt (dt : Int) : timeOfDay dt < 86400 := by
  rw [timeOfDay]
  have h2 : Int.emod dt 86400 < 86400 := Int.emod_lt_of_pos dt (by norm_num)
  have h1 : 0 ≤ Int.emod dt 86400 := Int.emod_nonneg dt (by norm_num)
  omega

theorem formatTimeHMS_shape (dt : Int) :
    ∃ h m s : Nat, h < 24 ∧ m < 60 ∧ s < 60 ∧
      formatTimeHMS dt = pad2 h ++ ":" ++ pad2 m ++ ":" ++ pad2 s := by
  have hlt := timeOfDay_lt dt
  exact ⟨timeOfDay dt / 3600, timeOfDay dt % 3600 / 60, timeOfDay dt % 60,
    by omega, by omega, by omega, rfl⟩

theorem isTimeShape_formatTimeHMS (dt : Int) : isTimeShape (formatTimeHMS dt) := by
  refine ⟨(pad2 (timeOfDay dt / 3600)).data, (pad2 (timeOfDay dt % 3600 / 60)).data,
    (pad2 (timeOfDay dt % 60)).data, ?_, rfl, rfl, rfl, ?_⟩
  · simp [formatTimeHMS]
  · simp [List.all_append, pad2_digits]

theorem isDateShape_formatDateYMD (d : Int) (h : (civilFromDays d).year < 10000) :
    isDateShape (formatDateYMD d) := by
  have hy : (civilFromDays d).year.toNat < 10000 := by omega
  refine ⟨(pad4 (civilFromDays d).year.toNat).data, (pad2 (civilFromDays d).month.toNat).data,
    (pad2 (civilFromDays d).day.toNat).data, ?_, ?_, rfl, rfl, ?_⟩
  · simp [formatDateYMD]
  · rw [pad4_data _ hy]
    rfl
  · simp [List.all_append, pad2_digits, pad4_digits _ hy]

/-- Each line followed by CRLF, concatenated: the target shape showing
every line of the ICS document is CRLF-terminated. -/
def concatCRLF : List String → String
  | [] => ""
  | l :: ls => l ++ "\r\n" ++ concatCRLF ls

theorem joinCRLF_concatCRLF : ∀ ls : List String, ls ≠ [] →
    joinCRLF ls ++ "\r\n" = concatCRLF ls := by
  intro ls
  induction ls with
  | nil => intro h; exact absurd rfl h
  | cons l ls ih =>
    intro _
    cases ls with
    | nil => simp [joinCRLF, concatCRLF]
    | cons m ms =>
      rw [show joinCRLF (l :: m :: ms) = l ++ "\r\n" ++ joinCRLF (m :: ms) from rfl]
      rw [show concatCRLF (l :: m :: ms) = l ++ "\r\n" ++ concatCRLF (m :: ms) from rfl]
      rw [← ih (by simp)]
      apply String.ext
      simp

theorem concatCRLF_append : ∀ a b : List String,
    concatCRLF (a ++ b) = concatCRLF a ++ concatCRLF b := by
  intro a b
  induction a with
  | nil => simp [concatCRLF]
  | cons l ls ih =>
    rw [List.cons_append]
    rw [show concatCRLF (l :: (ls ++ b)) = l ++ "\r\n" ++ concatCRLF (ls ++ b) from rfl]
    rw [show concatCRLF (l :: ls) = l ++ "\r\n" ++ concatCRLF ls from rfl]
    rw [ih]
    apply String.ext
    simp

theorem icsLines_ne_nil (events : List IcsEvent) : icsLines events ≠ [] := by
  simp [icsLines, icsPreambleLines]

theorem generate_ics_content_concatCRLF (events : List IcsEvent) :
    generate_ics_content events = concatCRLF (icsLines events) := by
  rw [generate_ics_content, joinCRLF_concatCRLF _ (icsLines_ne_nil events)]

theorem string_ne_of_head {s t : String} {a b : Char}
    (hs : s.data.head? = some a) (ht : t.data.head? = some b) (hab : a ≠ b) : s ≠ t := by
  intro h
  rw [h, ht] at hs
  exact hab (Option.some.inj hs).symm

theorem count_eventIcsLines_begin (evt : IcsEvent) :
    (eventIcsLines evt).count "BEGIN:VEVENT" = 1 := by
  have h1 : ("UID:" ++ evt.uid) ≠ "BEGIN:VEVENT" := string_ne_of_head rfl rfl (by decide)
  have h2 : ("DTSTAMP:" ++ evt.dtstamp) ≠ "BEGIN:VEVENT" := string_ne_of_head rfl rfl (by decide)
  have h3 : ("DTSTART;TZID=" ++ evt.timezone ++ ":" ++ evt.dtstart) ≠ "BEGIN:VEVENT" :=
    string_ne_of_head rfl rfl (by decide)
  have h4 : ("DTEND;TZID=" ++ evt.timezone ++ ":" ++ evt.dtend) ≠ "BEGIN:VEVENT" :=
    string_ne_of_head rfl rfl (by decide)
  have h5 : ("SUMMARY:" ++ evt.summary) ≠ "BEGIN:VEVENT" := string_ne_of_head rfl rfl (by decide)
  have h6 : ("DESCRIPTION:" ++ evt.description) ≠ "BEGIN:VEVENT" :=
    string_ne_of_head rfl rfl (by decide)
  simp [eventIcsLines, List.count_cons, h1, h2, h3, h4, h5, h6]

theorem count_eventIcsLines_endcal (evt : IcsEvent) :
    (eventIcsLines evt).count "END:VCALENDAR" = 0 := by
  have h1 : ("UID:" ++ evt.uid) ≠ "END:VCALENDAR" := string_ne_of_head rfl rfl (by decide)
  have h2 : ("DTSTAMP:" ++ evt.dtstamp) ≠ "END:VCALENDAR" := string_ne_of_head rfl rfl (by decide)
  have h3 : ("DTSTART;TZID=" ++ evt.timezone ++ ":" ++ evt.dtstart) ≠ "END:VCALENDAR" :=
    string_ne_of_head rfl rfl (by decide)
  have h4 : ("DTEND;TZID=" ++ evt.timezone ++ ":" ++ evt.dtend) ≠ "END:VCALENDAR" :=
    string_ne_of_head rfl rfl (by decide)
  have h5 : ("SUMMARY:" ++ evt.summary) ≠ "END:VCALENDAR" := string_ne_of_head rfl rfl (by decide)
  have h6 : ("DESCRIPTION:" ++ evt.description) ≠ "END:VCALENDAR" :=
    string_ne_of_head rfl rfl (by decide)
  simp [eventIcsLines, List.count_cons, h1, h2, h3, h4, h5, h6]

theorem count_icsLines_begin (events : List IcsEvent) :
    (icsLines events).count "BEGIN:VEVENT" = events.length := by
  rw [icsLines, List.count_append, List.count_append]
  have h1 : icsPreambleLines.count "BEGIN:VEVENT" = 0 := by decide
  have h2 : ∀ evs : List IcsEvent,
      ((evs.map eventIcsLines).flatten).count "BEGIN:VEVENT" = evs.length := by
    intro evs
    induction evs with
    | nil => rfl
    | cons evt evs ih =>
      simp only [List.map_cons, List.flatten_cons, List.count_append, ih,
        count_eventIcsLines_begin, List.length_cons]
      omega
  have h3 : (["END:VCALENDAR"] : List String).count "BEGIN:VEVENT" = 0 := by decide
  rw [h1, h2, h3]
  omega

theorem count_icsLines_endcal (events : List IcsEvent) :
    (icsLines events).count "END:VCALENDAR" = 1 := by
  rw [icsLines, List.count_append, List.count_append]
  have h1 : icsPreambleLines.count "END:VCALENDAR" = 0 := by decide
  have h2 : ∀ evs : List IcsEvent,
      ((evs.map eventIcsLines).flatten).count "END:VCALENDAR" = 0 := by
    intro evs
    induction evs with
    | nil => rfl
    | cons evt evs ih =>
      simp only [List.map_cons, List.flatten_cons, List.count_append, ih,
        count_eventIcsLines_endcal]
  have h3 : (["END:VCALENDAR"] : List String).count "END:VCALENDAR" = 1 := by decide
  rw [h1, h2, h3]

/-- C1: for every date range and mode, if the provider fails for a day `d`
inside the range, the run still completes (the builder is total and
produces a result), every other successful day's events are present in
the output, `d` contributes no event, and `(d, reason)` is recorded in the
failure list exactly once. -/
theorem claim1_single_day_failure_nonfatal (p : Provider) (sep : Bool) (s e d : Int)
    (r : String) (hsd : s ≤ d) (hde : d ≤ e) (hfail : p d = .error r) :
    (buildEventsData sep p (dateRange s e)).2.count (d, r) = 1 ∧
    (∀ ev ∈ (buildEventsData sep p (dateRange s e)).1, ev.date ≠ d) ∧
    (∀ d' st, s ≤ d' → d' ≤ e → d' ≠ d → p d' = .ok st →
      (buildEventsData sep p (dateRange s e)).1.filter (fun ev => ev.date == d') =
        dayEvents sep d' st) := by
  have hmem : d ∈ dateRange s e := mem_dateRange.mpr ⟨hsd, hde⟩
  refine ⟨?_, ?_, ?_⟩
  · rw [failures_buildEventsData]
    exact count_failRecord (count_dateRange hmem) hfail
  · intro ev hev hd
    obtain ⟨-, st, hok, -⟩ := mem_buildEventsData hev
    rw [hd, hfail] at hok
    simp at hok
  · intro d' st hsd' hde' hne hok
    exact filter_buildEventsData (count_dateRange (mem_dateRange.mpr ⟨hsd', hde'⟩)) hok

theorem claim1_witness :
    ((0:Int) ≤ 1 ∧ (1:Int) ≤ 2) ∧
    (buildEventsData false
      (fun x => if x = 1 then Except.error "polar" else Except.ok ⟨21600, 64800⟩)
      (dateRange 0 2)).2.count (1, "polar") = 1 :=
  ⟨⟨by decide, by decide⟩,
   (claim1_single_day_failure_nonfatal
     (fun x => if x = 1 then Except.error "polar" else Except.ok ⟨21600, 64800⟩)
     false 0 2 1 "polar" (by decide) (by decide) rfl).1⟩

/-- C2: for a date range with `start ≤ end` containing N days and a
provider succeeding on every day, combined mode yields exactly N events
and split mode exactly 2N (so `start = end` gives 1 and 2 events). -/
theorem claim2_event_counts (p : Provider) (s e : Int) (hse : s ≤ e)
    (hok : ∀ d, s ≤ d → d ≤ e → ∃ st, p d = .ok st) :
    (buildEventsData false p (dateRange s e)).1.length = (e - s + 1).toNat ∧
    (buildEventsData true p (dateRange s e)).1.length = 2 * (e - s + 1).toNat := by
  have hok2 : ∀ d ∈ dateRange s e, ∃ st, p d = .ok st := fun d hd =>
    hok d (mem_dateRange.mp hd).1 (mem_dateRange.mp hd).2
  have h1 := @length_buildEventsData false p (dateRange s e) hok2
  have h2 := @length_buildEventsData true p (dateRange s e) hok2
  rw [length_dateRange] at h1 h2
  simp only [if_true, if_false, Bool.false_eq_true] at h1 h2
  constructor
  · rw [h1]
    omega
  · rw [h2]
    omega

theorem claim2_witness :
    ((0:Int) ≤ 0) ∧
    (buildEventsData false (fun _ => Except.ok ⟨21600, 64800⟩) (dateRange 0 0)).1.length =
      ((0:Int) - 0 + 1).toNat ∧
    (buildEventsData true (fun _ => Except.ok ⟨21600, 64800⟩) (dateRange 0 0)).1.length =
      2 * ((0:Int) - 0 + 1).toNat :=
  ⟨by decide,
   claim2_event_counts (fun _ => Except.ok ⟨21600, 64800⟩) 0 0 (by decide)
     (fun _ _ _ => ⟨⟨21600, 64800⟩, rfl⟩)⟩

/-- C3: `generate_uid` is a pure, deterministic function of its four
inputs: two invocations with identical inputs yield identical strings, and
in the pipeline the UID attached to each event is independent of anything
run-varying — in particular of the run timestamp, the only per-run input
(`dtstamp`, computed from the `datetime.now` reading). -/
theorem claim3_generate_uid_deterministic :
    (∀ (date : Int) (event_type lat lng : String),
      generate_uid date event_type lat lng = generate_uid date event_type lat lng) ∧
    (∀ (ev : EventData) (lat lng timezone_str dtstamp : String),
      (toIcsEvent lat lng timezone_str dtstamp ev).uid = generate_uid ev.date ev.etype lat lng) ∧
    (∀ (events : List EventData) (lat lng timezone_str dtstamp1 dtstamp2 : String),
      (events.map (toIcsEvent lat lng timezone_str dtstamp1)).map IcsEvent.uid =
        (events.map (toIcsEvent lat lng timezone_str dtstamp2)).map IcsEvent.uid) := by
  refine ⟨fun _ _ _ _ => rfl, fun _ _ _ _ _ => rfl, fun events lat lng tz d1 d2 => ?_⟩
  simp only [List.map_map]
  exact List.map_congr_left (fun a _ => rfl)

/-- C4: the built event sequence is non-decreasing by the `date` field for
every provider and mode, and in split mode, whenever two events share a
date the earlier one is the Sunrise event and the later one the Sunset
event. -/
theorem claim4_ordering (p : Provider) (sep : Bool) (s e : Int) :
    (buildEventsData sep p (dateRange s e)).1.Pairwise (fun a b => a.date ≤ b.date) ∧
    (buildEventsData true p (dateRange s e)).1.Pairwise
      (fun a b => a.date = b.date → a.etype = "sunrise" ∧ b.etype = "sunset") :=
  ⟨pairwise_le_buildEventsData pairwise_dateRange,
   pairwise_split_buildEventsData pairwise_dateRange⟩

/-- C5: in split mode, each successful day `d` contributes exactly the
Sunrise event spanning `[sunrise − 30min, sunrise]` followed by the Sunset
event spanning `[sunset − 30min, sunset]`; every split-mode event lasts
exactly 30 minutes (1800 s) and ends at the astronomical instant, and the
ICS DTSTART/DTEND fields render exactly those two instants. -/
theorem claim5_split_event_spans (p : Provider) (s e : Int) :
    (∀ d st, s ≤ d → d ≤ e → p d = .ok st →
      (buildEventsData true p (dateRange s e)).1.filter (fun ev => ev.date == d) =
        [sunriseEvent d st, sunsetEvent d st] ∧
      (sunriseEvent d st).start = st.sunrise - 30 * 60 ∧
      (sunriseEvent d st).stop = st.sunrise ∧
      (sunsetEvent d st).start = st.sunset - 30 * 60 ∧
      (sunsetEvent d st).stop = st.sunset) ∧
    (∀ ev ∈ (buildEventsData true p (dateRange s e)).1,
      ev.stop - ev.start = 30 * 60 ∧
      (∃ st, p ev.date = .ok st ∧ (ev.stop = st.sunrise ∨ ev.stop = st.sunset)) ∧
      (∀ lat lng timezone_str dtstamp,
        (toIcsEvent lat lng timezone_str dtstamp ev).dtstart = format_datetime_ics ev.start ∧
        (toIcsEvent lat lng timezone_str dtstamp ev).dtend = format_datetime_ics ev.stop)) := by
  constructor
  · intro d st hsd hde hok
    refine ⟨?_, rfl, rfl, rfl, rfl⟩
    rw [filter_buildEventsData (count_dateRange (mem_dateRange.mpr ⟨hsd, hde⟩)) hok]
    rfl
  · intro ev hev
    obtain ⟨st, hok, hcase⟩ := mem_split_buildEventsData hev
    refine ⟨?_, ⟨st, hok, ?_⟩, fun _ _ _ _ => ⟨rfl, rfl⟩⟩
    · rcases hcase with h | h <;> rw [h] <;> simp [sunriseEvent, sunsetEvent]
    · rcases hcase with h | h
      · left
        rw [h]
        rfl
      · right
        rw [h]
        rfl

theorem claim5_witness :
    ((0:Int) ≤ 0) ∧
    (buildEventsData true (fun _ => Except.ok ⟨10000, 50000⟩)
        (dateRange 0 0)).1.filter (fun ev => ev.date == 0) =
      [sunriseEvent 0 ⟨10000, 50000⟩, sunsetEvent 0 ⟨10000, 50000⟩] :=
  ⟨by decide,
   ((claim5_split_event_spans (fun _ => Except.ok ⟨10000, 50000⟩) 0 0).1
     0 ⟨10000, 50000⟩ (by decide) (by decide) rfl).1⟩

theorem csvRowString_cons_str (f g : String) (gs : List String) :
    csvRowString (f :: g :: gs) = quoteField f ++ "," ++ csvRowString (g :: gs) := by
  apply String.ext
  simp [csvRowString, csvJoinFields]

theorem quoteField_in_row : ∀ (fields : List String) (f : String), f ∈ fields →
    ∃ pre post, csvRowString fields = pre ++ quoteField f ++ post := by
  intro fields
  induction fields with
  | nil => intro f hf; simp at hf
  | cons g gs ih =>
    intro f hf
    rcases List.mem_cons.mp hf with hfg | hmem
    · subst hfg
      cases gs with
      | nil =>
        refine ⟨"", "\r\n", ?_⟩
        apply String.ext
        simp [csvRowString, csvJoinFields]
      | cons g2 gs2 =>
        refine ⟨"", "," ++ csvRowString (g2 :: gs2), ?_⟩
        rw [csvRowString_cons_str]
        apply String.ext
        simp
    · have hgs : gs ≠ [] := by
        intro hnil
        rw [hnil] at hmem
        simp at hmem
      obtain ⟨g2, gs2, rfl⟩ := List.exists_cons_of_ne_nil hgs
      obtain ⟨pre, post, hp⟩ := ih f hmem
      refine ⟨quoteField g ++ "," ++ pre, post, ?_⟩
      rw [csvRowString_cons_str, hp]
      apply String.ext
      simp

theorem quoteField_head_last (s : String) :
    (quoteField s).data.head? = some '"' ∧ (quoteField s).data.getLast? = some '"' := by
  constructor
  · rw [quoteField_data]
    rfl
  · rw [quoteField_data]
    rw [show ('"' :: (escapeQuotes s.data ++ ['"'])) = ('"' :: escapeQuotes s.data) ++ ['"'] by simp]
    exact List.getLast?_concat _

/-- C6: with format "csv", the written file is exactly the fixed quoted
header row followed by one `QUOTE_ALL`-quoted row per event, in order; the
row of an event carries its summary, start/end date and time, the literal
`False` for All Day Event and the literal `True` for Private; dates render
as `YYYY-MM-DD` (for any date whose civil year is below 10000, i.e. every
representable Python date) and times as 24-hour `HH:MM:SS`; every field of
every row is individually wrapped in quotes regardless of content. -/
theorem claim6_csv_output_format (p : Provider) (lat lng timezone_str : String)
    (s e : Int) (filename : String) (sep : Bool) (now : Int) :
    (generate_daylight_calendar p lat lng timezone_str s e filename sep "csv" now).fileContent =
      csvRowString csvHeaders ++ csvRowsContent (buildEventsData sep p (dateRange s e)).1 ∧
    csvRowString csvHeaders =
      "\"Subject\",\"Start Date\",\"Start Time\",\"End Date\",\"End Time\",\"All Day Event\",\"Description\",\"Private\"\r\n" ∧
    (∀ evs : List EventData, ∀ ev ∈ evs, ∃ pre post,
      csvRowsContent evs = pre ++ csvRowString (eventCsvFields ev) ++ post) ∧
    (∀ ev : EventData, eventCsvFields ev =
      [ev.summary, formatDateYMD (dateOfDT ev.start), formatTimeHMS ev.start,
       formatDateYMD (dateOfDT ev.stop), formatTimeHMS ev.stop,
       "False", ev.description, "True"] ∧ (eventCsvFields ev).length = 8) ∧
    (∀ (fields : List String) (f : String), f ∈ fields →
      ∃ pre post, csvRowString fields = pre ++ quoteField f ++ post) ∧
    (∀ t : String, (quoteField t).data.head? = some '"' ∧
      (quoteField t).data.getLast? = some '"') ∧
    (∀ dt : Int, isTimeShape (formatTimeHMS dt) ∧
      ∃ hh mm ss : Nat, hh < 24 ∧ mm < 60 ∧ ss < 60 ∧
        formatTimeHMS dt = pad2 hh ++ ":" ++ pad2 mm ++ ":" ++ pad2 ss) ∧
    (∀ d : Int, (civilFromDays d).year < 10000 → isDateShape (formatDateYMD d)) := by
  refine ⟨?_, by decide, ?_, fun ev => ⟨rfl, rfl⟩, quoteField_in_row, quoteField_head_last,
    fun dt => ⟨isTimeShape_formatTimeHMS dt, formatTimeHMS_shape dt⟩,
    isDateShape_formatDateYMD⟩
  · rw [generate_daylight_calendar]
    simp only [if_neg (by decide : ("csv" : String) ≠ "ics")]
    rfl
  · intro evs
    induction evs with
    | nil => intro ev hev; simp at hev
    | cons ev2 evs ih =>
      intro ev hev
      rcases List.mem_cons.mp hev with hfg | hmem
      · subst hfg
        exact ⟨"", csvRowsContent evs, by apply String.ext; simp [csvRowsContent]⟩
      · obtain ⟨pre, post, hp⟩ := ih ev hmem
        refine ⟨csvRowString (eventCsvFields ev2) ++ pre, post, ?_⟩
        rw [show csvRowsContent (ev2 :: evs) =
          csvRowString (eventCsvFields ev2) ++ csvRowsContent evs from rfl, hp]
        apply String.ext
        simp

theorem claim6_witness :
    (civilFromDays (20624:Int)).year < 10000 ∧ isDateShape (formatDateYMD (20624:Int)) :=
  ⟨by decide,
   (claim6_csv_output_format (fun _ => Except.ok ⟨0, 0⟩) "0" "0" "UTC" 0 0 "f" false 0).2.2.2.2.2.2.2
     20624 (by decide)⟩

/-- C7: with format "ics", the written file is a single document whose
lines are the fixed five-line preamble, then one eleven-line VEVENT block
per event (UID, DTSTAMP equal to the one run-wide generation timestamp,
DTSTART/DTEND qualified by the resolved timezone identifier, summary,
description, CLASS:PRIVATE, STATUS:CONFIRMED, TRANSP:TRANSPARENT), then a
single terminating END:VCALENDAR line; every line is CRLF-terminated. -/
theorem claim7_ics_output_format (p : Provider) (lat lng timezone_str : String)
    (s e : Int) (filename : String) (sep : Bool) (now : Int) :
    (generate_daylight_calendar p lat lng timezone_str s e filename sep "ics" now).fileContent =
      generate_ics_content ((buildEventsData sep p (dateRange s e)).1.map
        (toIcsEvent lat lng timezone_str (format_datetime_ics now))) ∧
    (∀ events : List IcsEvent, generate_ics_content events = concatCRLF (icsLines events)) ∧
    icsPreambleLines = ["BEGIN:VCALENDAR", "VERSION:2.0",
      "PRODID:-//Daylight Calendar Generator//EN", "CALSCALE:GREGORIAN", "METHOD:PUBLISH"] ∧
    (∀ events : List IcsEvent, icsLines events =
      icsPreambleLines ++ (events.map eventIcsLines).flatten ++ ["END:VCALENDAR"]) ∧
    (∀ evt : IcsEvent, eventIcsLines evt = ["BEGIN:VEVENT", "UID:" ++ evt.uid,
      "DTSTAMP:" ++ evt.dtstamp, "DTSTART;TZID=" ++ evt.timezone ++ ":" ++ evt.dtstart,
      "DTEND;TZID=" ++ evt.timezone ++ ":" ++ evt.dtend, "SUMMARY:" ++ evt.summary,
      "DESCRIPTION:" ++ evt.description, "CLASS:PRIVATE", "STATUS:CONFIRMED",
      "TRANSP:TRANSPARENT", "END:VEVENT"]) ∧
    (∀ events : List IcsEvent,
      (icsLines events).count "BEGIN:VEVENT" = events.length ∧
      (icsLines events).count "END:VCALENDAR" = 1 ∧
      (icsLines events).getLast? = some "END:VCALENDAR" ∧
      ∃ pre, generate_ics_content events = pre ++ ("END:VCALENDAR" ++ "\r\n")) ∧
    (∀ ie ∈ (buildEventsData sep p (dateRange s e)).1.map
        (toIcsEvent lat lng timezone_str (format_datetime_ics now)),
      ie.dtstamp = format_datetime_ics now ∧ ie.timezone = timezone_str) := by
  refine ⟨?_, generate_ics_content_concatCRLF, rfl, fun _ => rfl, fun _ => rfl, ?_, ?_⟩
  · rw [generate_daylight_calendar]
    simp only [if_pos rfl, if_true]
  · intro events
    refine ⟨count_icsLines_begin events, count_icsLines_endcal events, ?_, ?_⟩
    · rw [show icsLines events =
        (icsPreambleLines ++ (events.map eventIcsLines).flatten) ++ ["END:VCALENDAR"] by
          simp [icsLines]]
      exact List.getLast?_concat _
    · refine ⟨concatCRLF (icsPreambleLines ++ (events.map eventIcsLines).flatten), ?_⟩
      rw [generate_ics_content_concatCRLF]
      rw [show icsLines events =
        (icsPreambleLines ++ (events.map eventIcsLines).flatten) ++ ["END:VCALENDAR"] by
          simp [icsLines]]
      rw [concatCRLF_append]
      apply String.ext
      simp [concatCRLF]
  · intro ie hie
    obtain ⟨ev, -, rfl⟩ := List.mem_map.mp hie
    exact ⟨rfl, rfl⟩

/-- C8: if the event sequence is empty — every day failed, or the range is
empty because `start > end` — the output file is still written, containing
only the CSV header row or the ICS preamble and terminator, and the run
completes (the pipeline is total and its trace contains the file write). -/
theorem claim8_empty_output_still_written (p : Provider) (lat lng timezone_str : String)
    (s e : Int) (filename : String) (sep : Bool) (now : Int)
    (h : e < s ∨ ∀ d, s ≤ d → d ≤ e → ∃ r, p d = .error r) :
    (generate_daylight_calendar p lat lng timezone_str s e filename sep "csv" now).fileContent =
      csvRowString csvHeaders ∧
    (generate_daylight_calendar p lat lng timezone_str s e filename sep "ics" now).fileContent =
      generate_ics_content [] ∧
    generate_ics_content ([] : List IcsEvent) =
      "BEGIN:VCALENDAR\r\nVERSION:2.0\r\nPRODID:-//Daylight Calendar Generator//EN\r\nCALSCALE:GREGORIAN\r\nMETHOD:PUBLISH\r\nEND:VCALENDAR\r\n" ∧
    Action.fileWrite filename (csvRowString csvHeaders) ∈
      (generate_daylight_calendar p lat lng timezone_str s e filename sep "csv" now).trace ∧
    Action.fileWrite filename (generate_ics_content []) ∈
      (generate_daylight_calendar p lat lng timezone_str s e filename sep "ics" now).trace := by
  have hnil : (buildEventsData sep p (dateRange s e)).1 = [] := by
    rcases h with h | h
    · rw [dateRange_eq_nil h]
      rfl
    · exact buildEventsData_eq_nil
        (fun d hd => h d (mem_dateRange.mp hd).1 (mem_dateRange.mp hd).2)
  have hcsv :
      (generate_daylight_calendar p lat lng timezone_str s e filename sep "csv" now).fileContent =
        csvRowString csvHeaders := by
    rw [generate_daylight_calendar]
    simp only [if_neg (by decide : ("csv" : String) ≠ "ics")]
    show generateCsvContent (buildEventsData sep p (dateRange s e)).1 = csvRowString csvHeaders
    rw [hnil]
    apply String.ext
    simp [generateCsvContent, csvRowsContent]
  have hics :
      (generate_daylight_calendar p lat lng timezone_str s e filename sep "ics" now).fileContent =
        generate_ics_content [] := by
    rw [generate_daylight_calendar]
    simp only [if_pos rfl]
    show generate_ics_content ((buildEventsData sep p (dateRange s e)).1.map
      (toIcsEvent lat lng timezone_str (format_datetime_ics now))) = generate_ics_content []
    rw [hnil]
    rfl
  refine ⟨hcsv, hics, by decide, ?_, ?_⟩
  · rw [show (generate_daylight_calendar p lat lng timezone_str s e filename sep "csv" now).trace =
      (dateRange s e).map Action.query ++ [Action.fileWrite filename
        (generate_daylight_calendar p lat lng timezone_str s e filename sep "csv" now).fileContent]
      from rfl, hcsv]
    exact List.mem_append_right _ (List.mem_singleton.mpr rfl)
  · rw [show (generate_daylight_calendar p lat lng timezone_str s e filename sep "ics" now).trace =
      (dateRange s e).map Action.query ++ [Action.fileWrite filename
        (generate_daylight_calendar p lat lng timezone_str s e filename sep "ics" now).fileContent]
      from rfl, hics]
    exact List.mem_append_right _ (List.mem_singleton.mpr rfl)

theorem claim8_witness :
    ((0:Int) < 1) ∧
    (generate_daylight_calendar (fun _ => Except.ok ⟨0, 0⟩) "0" "0" "UTC" 1 0 "out.csv"
      false "csv" 0).fileContent = csvRowString csvHeaders :=
  ⟨by decide,
   (claim8_empty_output_still_written (fun _ => Except.ok ⟨0, 0⟩) "0" "0" "UTC" 1 0 "out.csv"
     false 0 (Or.inl (by decide))).1⟩

/-- C9: CSV serialization round-trips: a conformant reader of the same
all-fields-quoted convention recovers every written field exactly, both
for an arbitrary nonempty record and in particular for every event row and
for the header row. -/
theorem claim9_csv_roundtrip :
    (∀ fields : List String, fields ≠ [] →
      parseCsvRecord (csvRowString fields) = some fields) ∧
    (∀ ev : EventData,
      parseCsvRecord (csvRowString (eventCsvFields ev)) = some (eventCsvFields ev)) ∧
    parseCsvRecord (csvRowString csvHeaders) = some csvHeaders :=
  ⟨parseCsvRecord_roundtrip,
   fun ev => parseCsvRecord_roundtrip _ (by simp [eventCsvFields]),
   parseCsvRecord_roundtrip _ (by simp [csvHeaders])⟩

theorem claim9_witness :
    ((["a\"b,c", "x"] : List String) ≠ []) ∧
    parseCsvRecord (csvRowString ["a\"b,c", "x"]) = some ["a\"b,c", "x"] :=
  ⟨by decide, claim9_csv_roundtrip.1 ["a\"b,c", "x"] (by decide)⟩

/-- C10: the output file is opened and written only after the whole
per-day iteration has finished: the effect trace of a run is exactly the
per-day provider queries, in range order, followed by a single file write
as its last action, and the written content is the serialization of the
complete surviving event sequence — never a partial one. -/
theorem claim10_write_after_full_iteration (p : Provider) (lat lng timezone_str : String)
    (s e : Int) (filename : String) (sep : Bool) (format_type : String) (now : Int) :
    (generate_daylight_calendar p lat lng timezone_str s e filename sep format_type now).trace =
      (dateRange s e).map Action.query ++ [Action.fileWrite filename
        (generate_daylight_calendar p lat lng timezone_str s e filename
          sep format_type now).fileContent] ∧
    (generate_daylight_calendar p lat lng timezone_str s e filename
        sep format_type now).trace.filter Action.isWrite =
      [Action.fileWrite filename (generate_daylight_calendar p lat lng timezone_str s e filename
        sep format_type now).fileContent] ∧
    (generate_daylight_calendar p lat lng timezone_str s e filename
        sep format_type now).trace.getLast? =
      some (Action.fileWrite filename (generate_daylight_calendar p lat lng timezone_str s e
        filename sep format_type now).fileContent) ∧
    (∀ a ∈ (generate_daylight_calendar p lat lng timezone_str s e filename
        sep format_type now).trace.dropLast, ∃ d, a = Action.query d) ∧
    (generate_daylight_calendar p lat lng timezone_str s e filename
        sep format_type now).fileContent =
      (if format_type = "ics" then
        generate_ics_content ((buildEventsData sep p (dateRange s e)).1.map
          (toIcsEvent lat lng timezone_str (format_datetime_ics now)))
      else generateCsvContent (buildEventsData sep p (dateRange s e)).1) := by
  refine ⟨rfl, ?_, ?_, ?_, rfl⟩
  · rw [show (generate_daylight_calendar p lat lng timezone_str s e filename
      sep format_type now).trace = (dateRange s e).map Action.query ++ [Action.fileWrite filename
        (generate_daylight_calendar p lat lng timezone_str s e filename
          sep format_type now).fileContent] from rfl]
    rw [List.filter_append]
    rw [List.filter_eq_nil_iff.mpr (fun a ha => by
      obtain ⟨d, -, rfl⟩ := List.mem_map.mp ha
      simp [Action.isWrite])]
    rfl
  · rw [show (generate_daylight_calendar p lat lng timezone_str s e filename
      sep format_type now).trace = (dateRange s e).map Action.query ++ [Action.fileWrite filename
        (generate_daylight_calendar p lat lng timezone_str s e filename
          sep format_type now).fileContent] from rfl]
    exact List.getLast?_concat _
  · rw [show (generate_daylight_calendar p lat lng timezone_str s e filename
      sep format_type now).trace = (dateRange s e).map Action.query ++ [Action.fileWrite filename
        (generate_daylight_calendar p lat lng timezone_str s e filename
          sep format_type now).fileContent] from rfl]
    rw [List.dropLast_concat]
    intro a ha
    obtain ⟨d, -, rfl⟩ := List.mem_map.mp ha
    exact ⟨d, rfl⟩

end DaylightCalendar
